import Mathlib

/-!
Verification of the diet-optimization simplex core.

Shallow embedding of the server-side solver (`simplexSolve` and the
`/api/optimize` and `/api/sensitivity` handlers) with exact rational
arithmetic in place of IEEE doubles.  The constraint count is fixed at 5
(protein, carbs, fat, fiber, vitamins), exactly as in the source.
-/

namespace DietOpt

/-- The tolerance `1e-6` used by the source for the ratio test and for
basis detection during extraction. -/
def eps : ℚ := 1 / 1000000

/-- `Math.abs`, written out so that it evaluates by kernel reduction. -/
def rabs (x : ℚ) : ℚ := if x < 0 then -x else x

/-- `Math.max`, written out so that it evaluates by kernel reduction. -/
def rmax (x y : ℚ) : ℚ := if x ≤ y then y else x

/-- A food item: unit cost plus the five nutrient fields, mirroring the
JSON shape `{name, cost, protein, carbs, fat, fiber, vitamins}`. -/
structure Food where
  name : String
  cost : ℚ
  protein : ℚ
  carbs : ℚ
  fat : ℚ
  fiber : ℚ
  vitamins : ℚ
deriving DecidableEq, Repr, Inhabited

/-- Nutrient lookup in the order of `constraintKeys`:
`['protein', 'carbs', 'fat', 'fiber', 'vitamins']`. -/
def Food.nutr (f : Food) : ℕ → ℚ
  | 0 => f.protein
  | 1 => f.carbs
  | 2 => f.fat
  | 3 => f.fiber
  | 4 => f.vitamins
  | _ => 0

/-- The requirement set: one minimum per nutrient key. -/
structure Constraints where
  protein : ℚ
  carbs : ℚ
  fat : ℚ
  fiber : ℚ
  vitamins : ℚ
deriving DecidableEq, Repr, Inhabited

/-- Requirement lookup in `constraintKeys` order. -/
def Constraints.get (c : Constraints) : ℕ → ℚ
  | 0 => c.protein
  | 1 => c.carbs
  | 2 => c.fat
  | 3 => c.fiber
  | 4 => c.vitamins
  | _ => 0

/-- The dense tableau: matrix plus basis vector (class `Tableau` in the
source).  The matrix is total over ℕ×ℕ; the solver only ever reads
indices inside `rows × cols`. -/
structure Tableau where
  mat : ℕ → ℕ → ℚ
  basis : ℕ → ℕ

/-- `findPivotColumn`: scan objective-row entries over columns
`0..cols-2`, keeping the strictly most negative value (ties keep the
lowest index, since only a strictly smaller value replaces the current
minimum); `none` when every entry is ≥ 0. -/
def findPivotColumn (M : ℕ → ℕ → ℚ) (rows cols : ℕ) : Option ℕ :=
  ((List.range (cols - 1)).foldl
    (fun acc j => if M (rows - 1) j < acc.1 then (M (rows - 1) j, some j) else acc)
    ((0 : ℚ), (none : Option ℕ))).2

/-- The ratio `-RHS[i] / matrix[i][c]` computed by `findPivotRow`. -/
def ratioAt (M : ℕ → ℕ → ℚ) (cols c i : ℕ) : ℚ :=
  -(M i (cols - 1)) / M i c

/-- One step of the `findPivotRow` scan: row `i` is considered when
`matrix[i][c] < -eps`, and replaces the running minimum when its ratio is
strictly positive and strictly below the minimum so far (`none` plays the
role of the initial `Infinity`). -/
def frStep (M : ℕ → ℕ → ℚ) (cols c : ℕ) (acc : Option (ℚ × ℕ)) (i : ℕ) :
    Option (ℚ × ℕ) :=
  if M i c < -eps then
    match acc with
    | none =>
        if 0 < ratioAt M cols c i then some (ratioAt M cols c i, i) else none
    | some (mr, r) =>
        if 0 < ratioAt M cols c i ∧ ratioAt M cols c i < mr then
          some (ratioAt M cols c i, i)
        else some (mr, r)
  else acc

/-- `findPivotRow`: minimum-ratio test over constraint rows `0..rows-2`. -/
def findPivotRow (M : ℕ → ℕ → ℚ) (rows cols c : ℕ) : Option ℕ :=
  (((List.range (rows - 1)).foldl (frStep M cols c) none).map Prod.snd)

/-- `Tableau.pivot`: divide the pivot row by the pivot element, then for
every other row `i` subtract `matrix[i][c]` times the new pivot row;
finally record `basis[r] = c`. -/
def Tableau.pivot (t : Tableau) (pr pc : ℕ) : Tableau :=
  { mat := fun i j =>
      if i = pr then t.mat pr j / t.mat pr pc
      else t.mat i j - t.mat i pc * (t.mat pr j / t.mat pr pc),
    basis := Function.update t.basis pr pc }

/-- The iteration loop of `simplexSolve`, with the remaining iteration
budget as fuel (the source runs `while (iteration < 100)`).  Returns the
final tableau together with the number of pivots performed, or the
`'Problem is unbounded'` error. -/
def loop (rows cols : ℕ) : Tableau → ℕ → Except String (Tableau × ℕ)
  | t, 0 => .ok (t, 0)
  | t, rem + 1 =>
    match findPivotColumn t.mat rows cols with
    | none => .ok (t, 0)
    | some pc =>
      match findPivotRow t.mat rows cols pc with
      | none => .error "Problem is unbounded"
      | some pr => (loop rows cols (t.pivot pr pc) rem).map (fun q => (q.1, q.2 + 1))

/-- Basis test used by the extractor for item column `j` at row `i`:
`|matrix[i][j] - 1| < eps` and every other constraint row `k` has
`|matrix[k][j]| ≤ eps` (the source breaks `allZero` only on entries
strictly greater than `eps`). -/
def basicCond (M : ℕ → ℕ → ℚ) (j i : ℕ) : Bool :=
  decide (rabs (M i j - 1) < eps) &&
    (List.range 5).all (fun k => k == i || decide (rabs (M k j) ≤ eps))

/-- First constraint row at which column `j` passes the basis test, in
row order 0..4, as in the source's inner loop with `break`. -/
def findBasicRow (M : ℕ → ℕ → ℚ) (j : ℕ) : Option ℕ :=
  (List.range 5).find? (basicCond M j)

/-- The extractor: `amounts[j] = max(0, RHS[basicRow])` when column `j`
passes the basis test at some row, else `0`. -/
def extractAmounts (M : ℕ → ℕ → ℚ) (n : ℕ) : List ℚ :=
  (List.range n).map fun j =>
    match findBasicRow M j with
    | some i => rmax 0 (M i (n + 5))
    | none => 0

/-- Tableau construction from `simplexSolve`: constraint row `i` holds
`-nutrient_j[i]` under item column `j`, `-1` under slack column `n+i`,
and `-requirement[i]` in the RHS column `n+5`; the objective row holds
the unit costs under the item columns and zeros elsewhere. -/
def initTableau (foods : List Food) (c : Constraints) : Tableau :=
  { mat := fun i j =>
      if i < 5 then
        if j < foods.length then -((foods.getD j default).nutr i)
        else if j = foods.length + i then -1
        else if j = foods.length + 5 then -(c.get i)
        else 0
      else if i = 5 then
        (if j < foods.length then (foods.getD j default).cost else 0)
      else 0,
    basis := fun i => if i < 5 then foods.length + i else 0 }

/-- The solver's result record.  `iterCount` is the number of pivots
performed (the source's `iteration` variable at loop exit); the snapshot
list is kept only for UI playback and is not modelled beyond its count. -/
structure Solution where
  amounts : List ℚ
  totalCost : ℚ
  shadowPrices : List ℚ
  iterCount : ℕ
  feasible : Bool
deriving DecidableEq, Repr

/-- `simplexSolve`: build the tableau, iterate up to 100 pivots, then
extract amounts, recompute `totalCost` as `Σ amounts[j]*cost[j]`, read
shadow prices as `|objectiveRow[n+i]|`, and return `feasible: true`. -/
def simplexSolve (foods : List Food) (c : Constraints) : Except String Solution :=
  match loop 6 (foods.length + 6) (initTableau foods c) 100 with
  | .error e => .error e
  | .ok (t, k) =>
    let amounts := extractAmounts t.mat foods.length
    .ok { amounts := amounts
          totalCost := (amounts.zip (foods.map Food.cost)).foldl
            (fun s p => s + p.1 * p.2) 0
          shadowPrices := (List.range 5).map fun i => rabs (t.mat 5 (foods.length + i))
          iterCount := k
          feasible := true }

/-- Missing-or-invalid-typed constraint fields of the request body:
`none` models an absent or non-number JSON value. -/
structure ConstraintsReq where
  protein : Option ℚ
  carbs : Option ℚ
  fat : Option ℚ
  fiber : Option ℚ
  vitamins : Option ℚ
deriving DecidableEq, Repr

/-- The `/api/optimize` handler's validation followed by the solver call:
missing body fields and an empty foods array are rejected, then each
constraint key is checked in `constraintKeys` order; any surviving input
is passed to `simplexSolve` unmodified. -/
def optimizeHandler (foodsOpt : Option (List Food)) (crOpt : Option ConstraintsReq) :
    Except String Solution :=
  match foodsOpt, crOpt with
  | none, _ => .error "Missing foods or constraints"
  | some _, none => .error "Missing foods or constraints"
  | some foods, some cr =>
    if foods.isEmpty then .error "Invalid foods array"
    else
      match cr.protein with
      | none => .error "Missing or invalid constraint: protein"
      | some p =>
        match cr.carbs with
        | none => .error "Missing or invalid constraint: carbs"
        | some cb =>
          match cr.fat with
          | none => .error "Missing or invalid constraint: fat"
          | some ft =>
            match cr.fiber with
            | none => .error "Missing or invalid constraint: fiber"
            | some fb =>
              match cr.vitamins with
              | none => .error "Missing or invalid constraint: vitamins"
              | some v => simplexSolve foods ⟨p, cb, ft, fb, v⟩

/-- One row of the sensitivity sweep: `{priceChange, newPrice, impactOnTotal}`. -/
structure SensRow where
  priceChange : ℤ
  newPrice : ℚ
  impactOnTotal : ℚ
deriving DecidableEq, Repr

/-- One entry of the sensitivity response:
`{food, currentPrice, quantity, analysis}`. -/
structure SensEntry where
  food : String
  currentPrice : ℚ
  quantity : ℚ
  analysis : List SensRow
deriving DecidableEq, Repr

/-- The percentages swept by the handler's
`for (let pct = -50; pct <= 50; pct += 10)` loop. -/
def pctList : List ℤ := [-50, -40, -30, -20, -10, 0, 10, 20, 30, 40, 50]

/-- One sweep row: `newCost = cost*(1 + pct/100)`,
`impact = amount*(newCost - cost)`. -/
def sensRowFor (cost a : ℚ) (pct : ℤ) : SensRow :=
  { priceChange := pct
    newPrice := cost * (1 + (pct : ℚ) / 100)
    impactOnTotal := a * (cost * (1 + (pct : ℚ) / 100) - cost) }

/-- The `/api/sensitivity` handler: one entry per food index whose
solution amount exceeds `eps`, each carrying the full percentage sweep. -/
def sensitivityHandler (amounts : List ℚ) (foods : List Food) : List SensEntry :=
  (List.range foods.length).filterMap fun idx =>
    let food := foods.getD idx default
    let a := amounts.getD idx 0
    if eps < a then
      some { food := food.name
             currentPrice := food.cost
             quantity := a
             analysis := pctList.map (sensRowFor food.cost a) }
    else none

/-- The fold state of `findPivotColumn` after scanning columns `0..k-1`. -/
def fcFold (M : ℕ → ℕ → ℚ) (rows k : ℕ) : ℚ × Option ℕ :=
  (List.range k).foldl
    (fun acc j => if M (rows - 1) j < acc.1 then (M (rows - 1) j, some j) else acc)
    ((0 : ℚ), (none : Option ℕ))

/-- The fold state of `findPivotRow` after scanning rows `0..k-1`. -/
def frFold (M : ℕ → ℕ → ℚ) (cols c k : ℕ) : Option (ℚ × ℕ) :=
  (List.range k).foldl (frStep M cols c) none

/-- Row `i` qualifies in the ratio test for entering column `c`:
`matrix[i][c] < -eps` and its ratio is strictly positive. -/
def qualRow (M : ℕ → ℕ → ℚ) (cols c i : ℕ) : Prop :=
  M i c < -eps ∧ 0 < ratioAt M cols c i

/-- The extractor's basis condition as a proposition: entry within `eps`
of 1 at row `i`, and at most `eps` in magnitude at every other row. -/
def codeBasic (M : ℕ → ℕ → ℚ) (j i : ℕ) : Prop :=
  rabs (M i j - 1) < eps ∧ ∀ k, k < 5 → k ≠ i → rabs (M k j) ≤ eps

/-- Modelled from the spec's words for claim C2 only: the claimed basis
condition with a strict `< eps` bound on the other rows (the source uses
a non-strict bound there); kept for comparison with `codeBasic`. -/
def specBasic (M : ℕ → ℕ → ℚ) (j i : ℕ) : Prop :=
  rabs (M i j - 1) < eps ∧ ∀ k, k < 5 → k ≠ i → rabs (M k j) < eps

/-- Nutrients delivered by an amounts vector for constraint `i`:
`Σ_j amounts[j] * nutrientVector_j[i]`. -/
def delivered (foods : List Food) (x : List ℚ) (i : ℕ) : ℚ :=
  ((x.zip foods).map fun p => p.1 * p.2.nutr i).sum

/-- The linear program is satisfied by `x`: nonnegative amounts meeting
every requirement. -/
def meetsConstraints (foods : List Food) (c : Constraints) (x : List ℚ) : Prop :=
  (∀ a ∈ x, 0 ≤ a) ∧ ∀ i, i < 5 → c.get i ≤ delivered foods x i

/-- The reference five-food data set shipped with the repository. -/
def refFoods : List Food :=
  [⟨"Oatmeal", 1/2, 5, 27, 3, 4, 15⟩,
   ⟨"Chicken Breast", 3, 31, 0, 18/5, 0, 10⟩,
   ⟨"Brown Rice", 3/10, 13/5, 23, 9/10, 9/5, 5⟩,
   ⟨"Broccoli", 3/2, 14/5, 7, 2/5, 13/5, 135⟩,
   ⟨"Banana", 1/4, 13/10, 27, 3/10, 31/10, 17⟩]

/-- The reference requirement set (USDA standard adult). -/
def refCons : Constraints := ⟨50, 130, 44, 25, 100⟩

/-- A zero-cost item with an all-zero nutrient vector. -/
def zFoods : List Food := [⟨"Free Food", 0, 0, 0, 0, 0, 0⟩]

/-- All-zero requirements. -/
def zCons : Constraints := ⟨0, 0, 0, 0, 0⟩

/-- A single item with a strictly negative unit cost. -/
def ubFoods : List Food := [⟨"Negative Cost", -1, 1, 1, 1, 1, 1⟩]

/-- Unit requirements. -/
def ubCons : Constraints := ⟨1, 1, 1, 1, 1⟩

/-- A request body whose one food has a negative unit cost. -/
def ubReq : ConstraintsReq := ⟨some 1, some 1, some 1, some 1, some 1⟩

/-- Positive cost (so no pivot happens), protein `-1` (so the initial
tableau holds `1` in row 0 of column 0) and carbs `-1e-6` (so row 1
holds exactly `eps`). -/
def epsFoods : List Food := [⟨"Edge", 1, -1, -(1/1000000), 0, 0, 0⟩]

/-- Negative protein requirement, making `RHS[0] = 5`. -/
def epsCons : Constraints := ⟨-5, 0, 0, 0, 0⟩

/-- Two negative-cost foods engineered so that the solver terminates at
an optimum after two pivots with item 0 basic at a positive RHS. -/
def negFoods : List Food :=
  [⟨"NegA", -1, -1, 2, 0, 0, 0⟩, ⟨"NegB", -3/4, -1/2, 1, 1, 0, 0⟩]

/-- Negative requirements for the two-pivot scenario. -/
def negCons : Constraints := ⟨-6, -8, -9, 0, 0⟩

/-- A single item with negative cost and an all-zero nutrient vector. -/
def c8Foods : List Food := [⟨"FreeNeg", -1, 0, 0, 0, 0, 0⟩]

/-- The solver output on the reference data set: no pivots, all-zero
amounts. -/
def refSol : Solution := ⟨[0, 0, 0, 0, 0], 0, [0, 0, 0, 0, 0], 0, true⟩

/-- The solver output on the zero-cost zero-nutrient item. -/
def zSol : Solution := ⟨[0], 0, [0, 0, 0, 0, 0], 0, true⟩

/-- The solver output on the `eps`-boundary input. -/
def epsSol : Solution := ⟨[5], 5, [0, 0, 0, 0, 0], 0, true⟩

/-- The solver output on the two-pivot negative-cost input. -/
def negSol : Solution := ⟨[1/2, 0], -(1/2), [0, 1/2, 1/4, 0, 0], 2, true⟩

lemma rabs_eq_abs (x : ℚ) : rabs x = |x| := by
  unfold rabs
  split
  · exact (abs_of_neg (by assumption)).symm
  · exact (abs_of_nonneg (le_of_not_lt (by assumption))).symm

lemma rmax_eq_max (x y : ℚ) : rmax x y = max x y := by
  unfold rmax
  split
  · exact (max_eq_right (by assumption)).symm
  · exact (max_eq_left (le_of_not_le (by assumption))).symm

lemma eps_pos : (0 : ℚ) < eps := by norm_num [eps]

lemma loop_zero (rows cols : ℕ) (t : Tableau) : loop rows cols t 0 = .ok (t, 0) := rfl

lemma loop_succ_opt (rows cols rem : ℕ) (t : Tableau)
    (hc : findPivotColumn t.mat rows cols = none) :
    loop rows cols t (rem + 1) = .ok (t, 0) := by
  simp [loop, hc]

lemma loop_succ_unb (rows cols rem : ℕ) (t : Tableau) (pc : ℕ)
    (hc : findPivotColumn t.mat rows cols = some pc)
    (hr : findPivotRow t.mat rows cols pc = none) :
    loop rows cols t (rem + 1) = .error "Problem is unbounded" := by
  simp [loop, hc, hr]

lemma loop_succ_pivot (rows cols rem : ℕ) (t : Tableau) (pc pr : ℕ)
    (hc : findPivotColumn t.mat rows cols = some pc)
    (hr : findPivotRow t.mat rows cols pc = some pr) :
    loop rows cols t (rem + 1) =
      (loop rows cols (t.pivot pr pc) rem).map (fun q => (q.1, q.2 + 1)) := by
  simp [loop, hc, hr]

lemma loop_count_le (rows cols : ℕ) :
    ∀ (rem : ℕ) (t t' : Tableau) (k : ℕ),
      loop rows cols t rem = .ok (t', k) → k ≤ rem := by
  intro rem
  induction rem with
  | zero =>
    intro t t' k h
    rw [loop_zero] at h
    cases h
    exact le_refl 0
  | succ n ih =>
    intro t t' k h
    cases hc : findPivotColumn t.mat rows cols with
    | none =>
      rw [loop_succ_opt rows cols n t hc] at h
      cases h
      exact Nat.zero_le _
    | some pc =>
      cases hr : findPivotRow t.mat rows cols pc with
      | none =>
        rw [loop_succ_unb rows cols n t pc hc hr] at h
        cases h
      | some pr =>
        rw [loop_succ_pivot rows cols n t pc pr hc hr] at h
        cases hl : loop rows cols (t.pivot pr pc) n with
        | error e => rw [hl] at h; cases h
        | ok q =>
          rw [hl] at h
          cases h
          exact Nat.succ_le_succ (ih _ q.1 q.2 hl)

lemma fcFold_spec (M : ℕ → ℕ → ℚ) (rows : ℕ) :
    ∀ k, (fcFold M rows k).1 ≤ 0 ∧
      ((fcFold M rows k).2 = none →
        (fcFold M rows k).1 = 0 ∧ ∀ j, j < k → 0 ≤ M (rows - 1) j) ∧
      (∀ c, (fcFold M rows k).2 = some c →
        c < k ∧ (fcFold M rows k).1 = M (rows - 1) c ∧ M (rows - 1) c < 0) := by
  intro k
  induction k with
  | zero =>
    refine ⟨le_refl 0, fun _ => ⟨rfl, fun j hj => absurd hj (Nat.not_lt_zero j)⟩,
      fun c hc => ?_⟩
    simp [fcFold] at hc
  | succ n ih =>
    obtain ⟨ih0, ih1, ih2⟩ := ih
    have hstep : fcFold M rows (n + 1) =
        (if M (rows - 1) n < (fcFold M rows n).1 then (M (rows - 1) n, some n)
         else fcFold M rows n) := by
      simp [fcFold, List.range_succ]
    by_cases h : M (rows - 1) n < (fcFold M rows n).1
    · rw [hstep, if_pos h]
      have hneg : M (rows - 1) n < 0 := lt_of_lt_of_le h ih0
      refine ⟨le_of_lt hneg, fun habs => by simp at habs, fun c hc => ?_⟩
      simp at hc
      subst hc
      exact ⟨Nat.lt_succ_self n, rfl, hneg⟩
    · rw [hstep, if_neg h]
      refine ⟨ih0, fun hnone => ?_, fun c hc => ?_⟩
      · obtain ⟨hz, hall⟩ := ih1 hnone
        refine ⟨hz, fun j hj => ?_⟩
        rcases Nat.lt_succ_iff_lt_or_eq.mp hj with hj' | rfl
        · exact hall j hj'
        · rw [hz] at h
          exact le_of_not_lt h
      · obtain ⟨h1, h2, h3⟩ := ih2 c hc
        exact ⟨Nat.lt_succ_of_lt h1, h2, h3⟩

lemma findPivotColumn_eq_fcFold (M : ℕ → ℕ → ℚ) (rows cols : ℕ) :
    findPivotColumn M rows cols = (fcFold M rows (cols - 1)).2 := rfl

lemma findPivotColumn_none_spec (M : ℕ → ℕ → ℚ) (rows cols : ℕ)
    (h : findPivotColumn M rows cols = none) :
    ∀ j, j < cols - 1 → 0 ≤ M (rows - 1) j :=
  ((fcFold_spec M rows (cols - 1)).2.1 (by rw [← findPivotColumn_eq_fcFold]; exact h)).2

lemma findPivotColumn_some_spec (M : ℕ → ℕ → ℚ) (rows cols c : ℕ)
    (h : findPivotColumn M rows cols = some c) :
    c < cols - 1 ∧ M (rows - 1) c < 0 := by
  have := (fcFold_spec M rows (cols - 1)).2.2 c
    (by rw [← findPivotColumn_eq_fcFold]; exact h)
  exact ⟨this.1, this.2.2⟩

lemma findPivotColumn_isSome_of_neg (M : ℕ → ℕ → ℚ) (rows cols j : ℕ)
    (hj : j < cols - 1) (hneg : M (rows - 1) j < 0) :
    ∃ c, findPivotColumn M rows cols = some c := by
  cases hc : findPivotColumn M rows cols with
  | none => exact absurd (findPivotColumn_none_spec M rows cols hc j hj) (not_le.mpr hneg)
  | some c => exact ⟨c, rfl⟩

lemma frFold_spec (M : ℕ → ℕ → ℚ) (cols c : ℕ) :
    ∀ k, (frFold M cols c k = none → ∀ i, i < k → ¬ qualRow M cols c i) ∧
      (∀ mr r, frFold M cols c k = some (mr, r) →
        r < k ∧ qualRow M cols c r ∧ mr = ratioAt M cols c r ∧
        ∀ i, i < k → qualRow M cols c i →
          mr ≤ ratioAt M cols c i ∧ (ratioAt M cols c i = mr → r ≤ i)) := by
  intro k
  induction k with
  | zero =>
    refine ⟨fun _ i hi => absurd hi (Nat.not_lt_zero i), fun mr r h => ?_⟩
    simp [frFold] at h
  | succ n ih =>
    obtain ⟨ih1, ih2⟩ := ih
    have hstep : frFold M cols c (n + 1) = frStep M cols c (frFold M cols c n) n := by
      simp [frFold, List.range_succ]
    cases hacc : frFold M cols c n with
    | none =>
      rw [hacc] at hstep
      by_cases h1 : M n c < -eps
      · by_cases h2 : 0 < ratioAt M cols c n
        · have hnew : frFold M cols c (n + 1) = some (ratioAt M cols c n, n) := by
            rw [hstep]; simp [frStep, h1, h2]
          refine ⟨fun habs => (by rw [hnew] at habs; cases habs), fun mr r h => ?_⟩
          rw [hnew] at h
          injection h with h'
          injection h' with hmr hr
          subst hmr
          subst hr
          refine ⟨Nat.lt_succ_self n, ⟨h1, h2⟩, rfl, fun i hi hq => ?_⟩
          rcases Nat.lt_succ_iff_lt_or_eq.mp hi with hi' | rfl
          · exact absurd hq (ih1 hacc i hi')
          · exact ⟨le_refl _, fun _ => le_refl _⟩
        · have hnew : frFold M cols c (n + 1) = none := by
            rw [hstep]; simp [frStep, h1, h2]
          refine ⟨fun _ i hi hq => ?_, fun mr r h => by rw [hnew] at h; cases h⟩
          rcases Nat.lt_succ_iff_lt_or_eq.mp hi with hi' | rfl
          · exact ih1 hacc i hi' hq
          · exact h2 hq.2
      · have hnew : frFold M cols c (n + 1) = none := by
          rw [hstep]; simp [frStep, h1]
        refine ⟨fun _ i hi hq => ?_, fun mr r h => by rw [hnew] at h; cases h⟩
        rcases Nat.lt_succ_iff_lt_or_eq.mp hi with hi' | rfl
        · exact ih1 hacc i hi' hq
        · exact h1 hq.1
    | some p =>
      obtain ⟨mr0, r0⟩ := p
      obtain ⟨hr0, hq0, hmr0, hmin0⟩ := ih2 mr0 r0 hacc
      rw [hacc] at hstep
      by_cases h1 : M n c < -eps
      · by_cases h2 : 0 < ratioAt M cols c n ∧ ratioAt M cols c n < mr0
        · have hnew : frFold M cols c (n + 1) = some (ratioAt M cols c n, n) := by
            rw [hstep]; simp [frStep, h1, h2]
          refine ⟨fun habs => (by rw [hnew] at habs; cases habs), fun mr r h => ?_⟩
          rw [hnew] at h
          injection h with h'
          injection h' with hmr hr
          subst hmr
          subst hr
          refine ⟨Nat.lt_succ_self n, ⟨h1, h2.1⟩, rfl, fun i hi hq => ?_⟩
          rcases Nat.lt_succ_iff_lt_or_eq.mp hi with hi' | rfl
          · have := (hmin0 i hi' hq).1
            refine ⟨le_of_lt (lt_of_lt_of_le h2.2 this), fun heq => ?_⟩
            exact absurd (heq ▸ lt_of_lt_of_le h2.2 this) (lt_irrefl _)
          · exact ⟨le_refl _, fun _ => le_refl _⟩
        · have hnew : frFold M cols c (n + 1) = some (mr0, r0) := by
            rw [hstep]; simp [frStep, h1, h2]
          refine ⟨fun habs => (by rw [hnew] at habs; cases habs), fun mr r h => ?_⟩
          rw [hnew] at h
          injection h with h'
          injection h' with hmr hr
          subst hmr
          subst hr
          refine ⟨Nat.lt_succ_of_lt hr0, hq0, hmr0, fun i hi hq => ?_⟩
          rcases Nat.lt_succ_iff_lt_or_eq.mp hi with hi' | rfl
          · exact hmin0 i hi' hq
          · have hge : mr0 ≤ ratioAt M cols c i := le_of_not_lt fun hlt => h2 ⟨hq.2, hlt⟩
            exact ⟨hge, fun _ => le_of_lt hr0⟩
      · have hnew : frFold M cols c (n + 1) = some (mr0, r0) := by
          rw [hstep]; simp [frStep, h1]
        refine ⟨fun habs => (by rw [hnew] at habs; cases habs), fun mr r h => ?_⟩
        rw [hnew] at h
        injection h with h'
        injection h' with hmr hr
        subst hmr
        subst hr
        refine ⟨Nat.lt_succ_of_lt hr0, hq0, hmr0, fun i hi hq => ?_⟩
        rcases Nat.lt_succ_iff_lt_or_eq.mp hi with hi' | rfl
        · exact hmin0 i hi' hq
        · exact absurd hq.1 h1

lemma findPivotRow_eq_frFold (M : ℕ → ℕ → ℚ) (rows cols c : ℕ) :
    findPivotRow M rows cols c = (frFold M cols c (rows - 1)).map Prod.snd := rfl

lemma findPivotRow_none_spec (M : ℕ → ℕ → ℚ) (rows cols c : ℕ)
    (h : findPivotRow M rows cols c = none) :
    ∀ i, i < rows - 1 → ¬ qualRow M cols c i := by
  rw [findPivotRow_eq_frFold, Option.map_eq_none'] at h
  exact (frFold_spec M cols c (rows - 1)).1 h

lemma findPivotRow_none_of (M : ℕ → ℕ → ℚ) (rows cols c : ℕ)
    (h : ∀ i, i < rows - 1 → ¬ qualRow M cols c i) :
    findPivotRow M rows cols c = none := by
  rw [findPivotRow_eq_frFold, Option.map_eq_none']
  cases hacc : frFold M cols c (rows - 1) with
  | none => rfl
  | some p =>
    obtain ⟨mr, r⟩ := p
    obtain ⟨hr, hq, _, _⟩ := (frFold_spec M cols c (rows - 1)).2 mr r hacc
    exact absurd hq (h r hr)

lemma findPivotRow_some_spec (M : ℕ → ℕ → ℚ) (rows cols c r : ℕ)
    (h : findPivotRow M rows cols c = some r) :
    r < rows - 1 ∧ qualRow M cols c r ∧
      ∀ i, i < rows - 1 → qualRow M cols c i →
        ratioAt M cols c r ≤ ratioAt M cols c i ∧
        (ratioAt M cols c i = ratioAt M cols c r → r ≤ i) := by
  rw [findPivotRow_eq_frFold, Option.map_eq_some'] at h
  obtain ⟨⟨mr, r'⟩, hacc, hr'⟩ := h
  cases hr'
  obtain ⟨h1, h2, h3, h4⟩ := (frFold_spec M cols c (rows - 1)).2 mr r' hacc
  subst h3
  exact ⟨h1, h2, h4⟩

lemma basicCond_iff (M : ℕ → ℕ → ℚ) (j i : ℕ) :
    basicCond M j i = true ↔ codeBasic M j i := by
  simp only [basicCond, codeBasic, Bool.and_eq_true, decide_eq_true_eq,
    List.all_eq_true, List.mem_range, Bool.or_eq_true, beq_iff_eq]
  constructor
  · rintro ⟨h1, h2⟩
    exact ⟨h1, fun k hk hne => ((h2 k hk).resolve_left hne)⟩
  · rintro ⟨h1, h2⟩
    exact ⟨h1, fun k hk => or_iff_not_imp_left.mpr (h2 k hk)⟩

lemma codeBasic_unique (M : ℕ → ℕ → ℚ) (j i i' : ℕ) (_ : i < 5) (hi' : i' < 5)
    (h : codeBasic M j i) (h' : codeBasic M j i') : i = i' := by
  by_contra hne
  have ha : rabs (M i' j) ≤ eps := h.2 i' hi' (fun he => hne he.symm)
  have hb : rabs (M i' j - 1) < eps := h'.1
  rw [rabs_eq_abs] at ha hb
  rw [eps] at ha hb
  rcases abs_le.mp ha with ⟨ha1, ha2⟩
  rcases abs_lt.mp hb with ⟨hb1, hb2⟩
  linarith

lemma findBasicRow_some_of (M : ℕ → ℕ → ℚ) (j i : ℕ) (hi : i < 5)
    (h : codeBasic M j i) : findBasicRow M j = some i := by
  cases hf : findBasicRow M j with
  | none =>
    have := List.find?_eq_none.mp hf i (List.mem_range.mpr hi)
    exact absurd ((basicCond_iff M j i).mpr h) (by simpa using this)
  | some k =>
    have hk : codeBasic M j k := (basicCond_iff M j k).mp (List.find?_some hf)
    have hk5 : k < 5 := List.mem_range.mp (List.mem_of_find?_eq_some hf)
    rw [codeBasic_unique M j k i hk5 hi hk h]

lemma findBasicRow_none_of (M : ℕ → ℕ → ℚ) (j : ℕ)
    (h : ∀ i, i < 5 → ¬ codeBasic M j i) : findBasicRow M j = none := by
  apply List.find?_eq_none.mpr
  intro i hi
  simpa [basicCond_iff] using h i (List.mem_range.mp hi)

lemma extractAmounts_getD (M : ℕ → ℕ → ℚ) (n j : ℕ) (hj : j < n) :
    (extractAmounts M n).getD j 0 =
      (match findBasicRow M j with
       | some i => rmax 0 (M i (n + 5))
       | none => 0) := by
  unfold extractAmounts
  rw [List.getD_eq_getElem?_getD, List.getElem?_map, List.getElem?_range hj]
  rfl

lemma extractAmounts_nonneg (M : ℕ → ℕ → ℚ) (n : ℕ) :
    ∀ x ∈ extractAmounts M n, 0 ≤ x := by
  intro x hx
  unfold extractAmounts at hx
  obtain ⟨j, _, hval⟩ := List.mem_map.mp hx
  cases hfb : findBasicRow M j with
  | some i =>
    rw [hfb] at hval
    simp only at hval
    rw [← hval, rmax_eq_max]
    exact le_max_left 0 _
  | none =>
    rw [hfb] at hval
    simp only at hval
    rw [← hval]

lemma foldl_mulsum (l : List (ℚ × ℚ)) :
    ∀ a : ℚ, l.foldl (fun s p => s + p.1 * p.2) a = a + (l.map fun p => p.1 * p.2).sum := by
  induction l with
  | nil => intro a; simp
  | cons hd tl ih =>
    intro a
    simp only [List.foldl_cons, List.map_cons, List.sum_cons, ih]
    ring

lemma mulsum_nonneg (l : List (ℚ × ℚ))
    (h : ∀ p ∈ l, 0 ≤ p.1 ∧ 0 ≤ p.2) :
    0 ≤ (l.map fun p => p.1 * p.2).sum := by
  apply List.sum_nonneg
  intro x hx
  obtain ⟨p, hp, hval⟩ := List.mem_map.mp hx
  rw [← hval]
  exact mul_nonneg (h p hp).1 (h p hp).2

/-- C3: every solve call performs at most 100 pivots — any `ok` result
carries a pivot count of at most 100 — and when the iteration budget is
exhausted the loop stops and hands back the current tableau unchanged,
from which the best-effort result is extracted. -/
theorem C3_iteration_cap :
    (∀ (foods : List Food) (c : Constraints) (sol : Solution),
      simplexSolve foods c = .ok sol → sol.iterCount ≤ 100) ∧
    (∀ (rows cols : ℕ) (t : Tableau), loop rows cols t 0 = .ok (t, 0)) := by
  constructor
  · intro foods c sol h
    unfold simplexSolve at h
    cases hl : loop 6 (foods.length + 6) (initTableau foods c) 100 with
    | error e => rw [hl] at h; simp at h
    | ok q =>
      obtain ⟨t, k⟩ := q
      rw [hl] at h
      simp only [Except.ok.injEq] at h
      rw [← h]
      exact loop_count_le 6 (foods.length + 6) 100 (initTableau foods c) t k hl
  · intro rows cols t
    rfl

/-- C4: when an entering column is found but no leaving row exists, the
loop stops at once with the unbounded error, and a loop error is
surfaced by `simplexSolve` as-is, without extracting any amounts. -/
theorem C4_unbounded_surfaces :
    (∀ (rows cols rem : ℕ) (t : Tableau) (pc : ℕ),
      findPivotColumn t.mat rows cols = some pc →
      findPivotRow t.mat rows cols pc = none →
      loop rows cols t (rem + 1) = .error "Problem is unbounded") ∧
    (∀ (foods : List Food) (c : Constraints) (e : String),
      loop 6 (foods.length + 6) (initTableau foods c) 100 = .error e →
      simplexSolve foods c = .error e) := by
  constructor
  · intro rows cols rem t pc hc hr
    exact loop_succ_unb rows cols rem t pc hc hr
  · intro foods c e h
    unfold simplexSolve
    rw [h]

/-- C5: `findPivotRow` returns none exactly when no constraint row
`0..rows-2` has entry below `-eps` with a strictly positive ratio
`-RHS/entry`, and any returned row qualifies, attains the minimum
positive ratio, and is the lowest-indexed row among ties. -/
theorem C5_findLeavingRow_spec (M : ℕ → ℕ → ℚ) (rows cols c : ℕ) :
    (findPivotRow M rows cols c = none ↔ ∀ i, i < rows - 1 → ¬ qualRow M cols c i) ∧
    (∀ r, findPivotRow M rows cols c = some r →
      r < rows - 1 ∧ qualRow M cols c r ∧
      ∀ i, i < rows - 1 → qualRow M cols c i →
        ratioAt M cols c r ≤ ratioAt M cols c i ∧
        (ratioAt M cols c i = ratioAt M cols c r → r ≤ i)) := by
  refine ⟨⟨findPivotRow_none_spec M rows cols c, findPivotRow_none_of M rows cols c⟩,
    findPivotRow_some_spec M rows cols c⟩

/-- C6: a pivot whose element is at least `eps` in magnitude leaves the
pivot column as an exact unit vector (1 at the pivot row, 0 elsewhere)
and records `basis[pivotRow] = pivotColumn`; moreover every pivot the
engine performs satisfies that precondition, because a selected leaving
row always has `matrix[row][col] < -eps`. -/
theorem C6_pivot_invariant :
    (∀ (t : Tableau) (pr pc : ℕ), eps ≤ rabs (t.mat pr pc) →
      (t.pivot pr pc).mat pr pc = 1 ∧
      (∀ i, i ≠ pr → (t.pivot pr pc).mat i pc = 0) ∧
      (t.pivot pr pc).basis pr = pc) ∧
    (∀ (M : ℕ → ℕ → ℚ) (rows cols pc pr : ℕ),
      findPivotRow M rows cols pc = some pr → eps ≤ rabs (M pr pc)) := by
  constructor
  · intro t pr pc h
    have hne : t.mat pr pc ≠ 0 := by
      intro h0
      rw [h0] at h
      norm_num [rabs, eps] at h
    refine ⟨?_, ?_, ?_⟩
    · simp [Tableau.pivot, div_self hne]
    · intro i hi
      simp [Tableau.pivot, hi, div_self hne]
    · simp [Tableau.pivot]
  · intro M rows cols pc pr h
    have hq := (findPivotRow_some_spec M rows cols pc pr h).2.1
    have hlt : M pr pc < -eps := hq.1
    rw [rabs_eq_abs]
    have h1 : eps ≤ -(M pr pc) := by linarith
    exact le_trans h1 (neg_le_abs _)

/-- C10: whenever `simplexSolve` returns a `Solution` at all, its
`feasible` field is `true` — the flag never reflects whether the
constraints are met, and no iteration-limit outcome is distinguished. -/
theorem C10_feasible_flag :
    ∀ (foods : List Food) (c : Constraints) (sol : Solution),
      simplexSolve foods c = .ok sol → sol.feasible = true := by
  intro foods c sol h
  unfold simplexSolve at h
  cases hl : loop 6 (foods.length + 6) (initTableau foods c) 100 with
  | error e => rw [hl] at h; simp at h
  | ok q =>
    obtain ⟨t, k⟩ := q
    rw [hl] at h
    simp only [Except.ok.injEq] at h
    rw [← h]

/-- C2 (amended): the extractor sets `amounts[j] = max(0, RHS[i])` when
row `i` passes the basis test — entry within `eps` of 1 and every other
row at most `eps` in magnitude (non-strict, where the claim said
strict) — and 0 when no row passes; `totalCost` is recomputed as
`Σ amounts[j]*unitCost[j]`, and it is nonnegative whenever all unit
costs are nonnegative. -/
theorem C2_extractor_spec :
    (∀ (M : ℕ → ℕ → ℚ) (n j i : ℕ), j < n → i < 5 → codeBasic M j i →
      (extractAmounts M n).getD j 0 = rmax 0 (M i (n + 5))) ∧
    (∀ (M : ℕ → ℕ → ℚ) (n j : ℕ), j < n → (∀ i, i < 5 → ¬ codeBasic M j i) →
      (extractAmounts M n).getD j 0 = 0) ∧
    (∀ (foods : List Food) (c : Constraints) (sol : Solution),
      simplexSolve foods c = .ok sol →
      sol.totalCost = ((sol.amounts.zip (foods.map Food.cost)).map
        fun p => p.1 * p.2).sum) ∧
    (∀ (foods : List Food) (c : Constraints) (sol : Solution),
      (∀ f ∈ foods, 0 ≤ f.cost) → simplexSolve foods c = .ok sol →
      0 ≤ sol.totalCost) := by
  have hcost : ∀ (foods : List Food) (c : Constraints) (sol : Solution),
      simplexSolve foods c = .ok sol →
      sol.amounts = extractAmounts
        ((loop 6 (foods.length + 6) (initTableau foods c) 100).toOption.map
          Prod.fst |>.getD (initTableau foods c)).mat foods.length ∧
      sol.totalCost = ((sol.amounts.zip (foods.map Food.cost)).map
        fun p => p.1 * p.2).sum := by
    intro foods c sol h
    unfold simplexSolve at h
    cases hl : loop 6 (foods.length + 6) (initTableau foods c) 100 with
    | error e => rw [hl] at h; simp at h
    | ok q =>
      obtain ⟨t, k⟩ := q
      rw [hl] at h
      simp only [Except.ok.injEq] at h
      rw [← h]
      refine ⟨by simp [Except.toOption], ?_⟩
      simp only
      rw [foldl_mulsum]
      ring
  refine ⟨?_, ?_, fun foods c sol h => (hcost foods c sol h).2, ?_⟩
  · intro M n j i hj hi hb
    rw [extractAmounts_getD M n j hj, findBasicRow_some_of M j i hi hb]
  · intro M n j hj hnone
    rw [extractAmounts_getD M n j hj, findBasicRow_none_of M j hnone]
  · intro foods c sol hc h
    obtain ⟨hamounts, htc⟩ := hcost foods c sol h
    rw [htc]
    apply mulsum_nonneg
    intro p hp
    obtain ⟨hp1, hp2⟩ := List.of_mem_zip hp
    constructor
    · exact extractAmounts_nonneg _ _ p.1 (hamounts ▸ hp1)
    · obtain ⟨f, hf, hval⟩ := List.mem_map.mp hp2
      rw [← hval]
      exact hc f hf

set_option maxHeartbeats 1600000 in
lemma refSolve_eq : simplexSolve refFoods refCons = .ok refSol := by
  norm_num [simplexSolve, loop, initTableau, findPivotColumn, findPivotRow, frStep,
    ratioAt, Tableau.pivot, extractAmounts, findBasicRow, basicCond, rabs, rmax, eps,
    Food.nutr, Constraints.get, refFoods, refCons, refSol, List.range_succ]

set_option maxHeartbeats 1600000 in
lemma zSolve_eq : simplexSolve zFoods zCons = .ok zSol := by
  norm_num [simplexSolve, loop, initTableau, findPivotColumn, findPivotRow, frStep,
    ratioAt, Tableau.pivot, extractAmounts, findBasicRow, basicCond, rabs, rmax, eps,
    Food.nutr, Constraints.get, zFoods, zCons, zSol, List.range_succ]

set_option maxHeartbeats 1600000 in
lemma epsSolve_eq : simplexSolve epsFoods epsCons = .ok epsSol := by
  norm_num [simplexSolve, loop, initTableau, findPivotColumn, findPivotRow, frStep,
    ratioAt, Tableau.pivot, extractAmounts, findBasicRow, basicCond, rabs, rmax, eps,
    Food.nutr, Constraints.get, epsFoods, epsCons, epsSol, List.range_succ]

set_option maxHeartbeats 1600000 in
lemma ubSolve_eq : simplexSolve ubFoods ubCons = .error "Problem is unbounded" := by
  norm_num [simplexSolve, loop, initTableau, findPivotColumn, findPivotRow, frStep,
    ratioAt, Tableau.pivot, extractAmounts, findBasicRow, basicCond, rabs, rmax, eps,
    Food.nutr, Constraints.get, ubFoods, ubCons, List.range_succ]

set_option maxHeartbeats 1600000 in
lemma negSolve_eq : simplexSolve negFoods negCons = .ok negSol := by
  have e1c : findPivotColumn (initTableau negFoods negCons).mat 6 8 = some 0 := by
    norm_num [findPivotColumn, initTableau, Food.nutr, Constraints.get, negFoods, negCons,
      List.range_succ]
  have e1r : findPivotRow (initTableau negFoods negCons).mat 6 8 0 = some 1 := by
    norm_num [findPivotRow, frStep, ratioAt, initTableau, Food.nutr, Constraints.get,
      negFoods, negCons, eps, List.range_succ]
  have e2c : findPivotColumn ((initTableau negFoods negCons).pivot 1 0).mat 6 8 = some 1 := by
    norm_num [findPivotColumn, Tableau.pivot, initTableau, Food.nutr, Constraints.get,
      negFoods, negCons, List.range_succ]
  have e2r : findPivotRow ((initTableau negFoods negCons).pivot 1 0).mat 6 8 1 = some 2 := by
    norm_num [findPivotRow, frStep, ratioAt, Tableau.pivot, initTableau, Food.nutr,
      Constraints.get, negFoods, negCons, eps, List.range_succ]
  have e3c : findPivotColumn (((initTableau negFoods negCons).pivot 1 0).pivot 2 1).mat 6 8 =
      none := by
    norm_num [findPivotColumn, Tableau.pivot, initTableau, Food.nutr, Constraints.get,
      negFoods, negCons, List.range_succ]
  have hloop : loop 6 8 (initTableau negFoods negCons) 100 =
      .ok ((((initTableau negFoods negCons).pivot 1 0).pivot 2 1), 2) := by
    rw [show (100 : ℕ) = 99 + 1 from rfl, loop_succ_pivot 6 8 99 _ 0 1 e1c e1r,
      show (99 : ℕ) = 98 + 1 from rfl, loop_succ_pivot 6 8 98 _ 1 2 e2c e2r,
      show (98 : ℕ) = 97 + 1 from rfl, loop_succ_opt 6 8 97 _ e3c]
    rfl
  unfold simplexSolve
  rw [show negFoods.length = 2 from by norm_num [negFoods]] at *
  rw [hloop]
  norm_num [negSol, extractAmounts, findBasicRow, basicCond, rabs, rmax, eps,
    Tableau.pivot, initTableau, Food.nutr, Constraints.get, negFoods, negCons,
    List.range_succ, List.find?]

lemma initTableau_obj (foods : List Food) (c : Constraints) (j : ℕ)
    (hj : j < foods.length) :
    (initTableau foods c).mat 5 j = (foods.getD j default).cost := by
  simp only [initTableau]
  norm_num
  intro h
  exact absurd hj (not_lt.mpr h)

lemma initTableau_obj_zero (foods : List Food) (c : Constraints) (j : ℕ)
    (hj : foods.length ≤ j) :
    (initTableau foods c).mat 5 j = 0 := by
  simp only [initTableau]
  norm_num
  intro h
  exact absurd h (not_lt.mpr hj)

lemma initTableau_item (foods : List Food) (c : Constraints) (i j : ℕ) (hi : i < 5)
    (hj : j < foods.length) :
    (initTableau foods c).mat i j = -((foods.getD j default).nutr i) := by
  simp only [initTableau]
  rw [if_pos hi, if_pos hj]

lemma nutr_zero_of_fields (f : Food) (h1 : f.protein = 0) (h2 : f.carbs = 0)
    (h3 : f.fat = 0) (h4 : f.fiber = 0) (h5 : f.vitamins = 0) :
    ∀ i, f.nutr i = 0 := by
  intro i
  match i with
  | 0 => exact h1
  | 1 => exact h2
  | 2 => exact h3
  | 3 => exact h4
  | 4 => exact h5
  | n + 5 => rfl

/-- C7 (amended): the `/api/optimize` validation rejects exactly missing
body fields, an empty foods array, and a missing or non-numeric
constraint key; a nonempty foods list with all five constraint keys
present reaches `simplexSolve` unchanged, regardless of any negative
cost, nutrient, or requirement values. -/
theorem C7_validation :
    (∀ (crOpt : Option ConstraintsReq),
      optimizeHandler none crOpt = .error "Missing foods or constraints") ∧
    (∀ (foods : List Food),
      optimizeHandler (some foods) none = .error "Missing foods or constraints") ∧
    (∀ (cr : ConstraintsReq),
      optimizeHandler (some []) (some cr) = .error "Invalid foods array") ∧
    (∀ (foods : List Food) (cr : ConstraintsReq), foods ≠ [] → cr.protein = none →
      optimizeHandler (some foods) (some cr) =
        .error "Missing or invalid constraint: protein") ∧
    (∀ (foods : List Food) (p cb ft fb v : ℚ), foods ≠ [] →
      optimizeHandler (some foods) (some ⟨some p, some cb, some ft, some fb, some v⟩) =
        simplexSolve foods ⟨p, cb, ft, fb, v⟩) := by
  refine ⟨fun crOpt => rfl, fun foods => rfl, fun cr => rfl, ?_, ?_⟩
  · intro foods cr hne hp
    have hemp : foods.isEmpty = false := by
      cases foods with
      | nil => exact absurd rfl hne
      | cons hd tl => rfl
    simp [optimizeHandler, hemp, hp]
  · intro foods p cb ft fb v hne
    have hemp : foods.isEmpty = false := by
      cases foods with
      | nil => exact absurd rfl hne
      | cons hd tl => rfl
    simp [optimizeHandler, hemp]

/-- C8 (amended): an item with a strictly negative unit cost — which,
unlike a zero-cost item, is eligible to enter — and an all-zero
nutrientVector yields the Unbounded failure: here stated for inputs all
of whose items have all-zero nutrient vectors and at least one strictly
negative cost. -/
theorem C8_amended (foods : List Food) (c : Constraints)
    (hzero : ∀ f ∈ foods, f.protein = 0 ∧ f.carbs = 0 ∧ f.fat = 0 ∧
      f.fiber = 0 ∧ f.vitamins = 0)
    (hneg : ∃ f ∈ foods, f.cost < 0) :
    simplexSolve foods c = .error "Problem is unbounded" := by
  obtain ⟨f, hf, hfc⟩ := hneg
  obtain ⟨j, hj, hje⟩ := List.mem_iff_getElem.mp hf
  have hgetD : ∀ m (hm : m < foods.length), foods.getD m default = foods[m] := by
    intro m hm
    rw [List.getD_eq_getElem?_getD, List.getElem?_eq_getElem hm]
    rfl
  have hobj : (initTableau foods c).mat 5 j < 0 := by
    rw [initTableau_obj foods c j hj, hgetD j hj, hje]
    exact hfc
  obtain ⟨pc, hpc⟩ := findPivotColumn_isSome_of_neg
    (initTableau foods c).mat 6 (foods.length + 6) j (by omega) hobj
  have hspec := findPivotColumn_some_spec
    (initTableau foods c).mat 6 (foods.length + 6) pc hpc
  have hpc_lt : pc < foods.length := by
    by_contra hge
    push_neg at hge
    have hz : (initTableau foods c).mat 5 pc = 0 :=
      initTableau_obj_zero foods c pc hge
    rw [hz] at hspec
    exact lt_irrefl 0 hspec.2
  have hnor : findPivotRow (initTableau foods c).mat 6 (foods.length + 6) pc = none := by
    apply findPivotRow_none_of
    intro i hi hq
    have hi5 : i < 5 := by omega
    have hz : (initTableau foods c).mat i pc = 0 := by
      rw [initTableau_item foods c i pc hi5 hpc_lt, hgetD pc hpc_lt]
      obtain ⟨h1, h2, h3, h4, h5⟩ := hzero foods[pc] (List.getElem_mem hpc_lt)
      rw [nutr_zero_of_fields foods[pc] h1 h2 h3 h4 h5 i]
      exact neg_zero
    have := hq.1
    rw [hz] at this
    have := lt_trans this (by norm_num [eps] : -eps < 0)
    exact lt_irrefl 0 this
  have hloop : loop 6 (foods.length + 6) (initTableau foods c) 100 =
      .error "Problem is unbounded" := by
    rw [show (100 : ℕ) = 99 + 1 from rfl]
    exact loop_succ_unb 6 (foods.length + 6) 99 (initTableau foods c) pc hpc hnor
  unfold simplexSolve
  rw [hloop]

/-- C9: the sensitivity handler produces one entry exactly for each item
index whose amount exceeds `eps`, each entry sweeps the percentages
-50..50 in steps of 10 with `newCost = cost*(1+pct/100)` and
`costImpact = amount*(newCost-cost)`, and the row at `pct = 0` has
impact exactly 0. -/
theorem C9_sensitivity_spec :
    (∀ (amounts : List ℚ) (foods : List Food) (e : SensEntry),
      e ∈ sensitivityHandler amounts foods →
      ∃ idx, idx < foods.length ∧ eps < amounts.getD idx 0 ∧
        e.food = (foods.getD idx default).name ∧
        e.currentPrice = (foods.getD idx default).cost ∧
        e.quantity = amounts.getD idx 0 ∧
        e.analysis = pctList.map
          (sensRowFor (foods.getD idx default).cost (amounts.getD idx 0))) ∧
    (∀ (amounts : List ℚ) (foods : List Food) (idx : ℕ), idx < foods.length →
      eps < amounts.getD idx 0 →
      ({ food := (foods.getD idx default).name
         currentPrice := (foods.getD idx default).cost
         quantity := amounts.getD idx 0
         analysis := pctList.map
           (sensRowFor (foods.getD idx default).cost (amounts.getD idx 0)) } : SensEntry)
        ∈ sensitivityHandler amounts foods) ∧
    ((0 : ℤ) ∈ pctList ∧ ∀ (cost a : ℚ),
      sensRowFor cost a 0 = { priceChange := 0, newPrice := cost, impactOnTotal := 0 }) := by
  refine ⟨?_, ?_, by norm_num [pctList], ?_⟩
  · intro amounts foods e he
    obtain ⟨idx, hmem, hsome⟩ := List.mem_filterMap.mp he
    by_cases hlt : eps < amounts.getD idx 0
    · refine ⟨idx, List.mem_range.mp hmem, hlt, ?_⟩
      dsimp only at hsome
      rw [if_pos hlt] at hsome
      injection hsome with hsome
      rw [← hsome]
      exact ⟨rfl, rfl, rfl, rfl⟩
    · dsimp only at hsome
      rw [if_neg hlt] at hsome
      cases hsome
  · intro amounts foods idx hidx hlt
    apply List.mem_filterMap.mpr
    exact ⟨idx, List.mem_range.mpr hidx, by dsimp only; rw [if_pos hlt]⟩
  · intro cost a
    unfold sensRowFor
    norm_num

/-- C1 (code bug): on the repository's own reference data set the linear
program is feasible — ten units of each food meets every requirement —
yet the solver performs no pivot (all unit costs are positive, so the
objective row has no negative entry) and returns all-zero amounts, so
the delivered protein is 0, far below `requirement - eps`; the claimed
constraint-satisfaction property fails on the code. -/
theorem C1_reference_violation :
    simplexSolve refFoods refCons = .ok refSol ∧
    meetsConstraints refFoods refCons [10, 10, 10, 10, 10] ∧
    refSol.amounts = [0, 0, 0, 0, 0] ∧
    delivered refFoods refSol.amounts 0 < refCons.get 0 - eps := by
  refine ⟨refSolve_eq, ⟨?_, ?_⟩, rfl, ?_⟩
  · intro a ha
    fin_cases ha <;> norm_num
  · intro i hi
    interval_cases i <;>
      norm_num [delivered, refFoods, refCons, Food.nutr, Constraints.get]
  · norm_num [delivered, refFoods, refCons, refSol, Food.nutr, Constraints.get, eps]

/-- C2 (counterexample): on the `eps`-boundary input no row satisfies
the claim's strict basis condition at column 0, yet the extractor
returns `amounts = [5]`, not 0 as the claim's "otherwise" branch
demands; and on the two-pivot negative-cost input the solver returns a
Solution whose `totalCost` is `-1/2 < 0`, refuting `totalCost ≥ 0`. -/
theorem C2_counterexample :
    simplexSolve epsFoods epsCons = .ok epsSol ∧
    (¬ specBasic (initTableau epsFoods epsCons).mat 0 0) ∧
    (¬ specBasic (initTableau epsFoods epsCons).mat 0 1) ∧
    (¬ specBasic (initTableau epsFoods epsCons).mat 0 2) ∧
    (¬ specBasic (initTableau epsFoods epsCons).mat 0 3) ∧
    (¬ specBasic (initTableau epsFoods epsCons).mat 0 4) ∧
    epsSol.amounts = [5] ∧
    simplexSolve negFoods negCons = .ok negSol ∧
    negSol.totalCost < 0 := by
  refine ⟨epsSolve_eq, ?_, ?_, ?_, ?_, ?_, rfl, negSolve_eq, by norm_num [negSol]⟩
  · intro hsb
    have h1 := hsb.2 1 (by norm_num) (by norm_num)
    norm_num [initTableau, epsFoods, epsCons, Food.nutr, Constraints.get, rabs,
      eps] at h1
  · intro hsb
    have h1 := hsb.1
    norm_num [initTableau, epsFoods, epsCons, Food.nutr, Constraints.get, rabs,
      eps] at h1
  · intro hsb
    have h1 := hsb.1
    norm_num [initTableau, epsFoods, epsCons, Food.nutr, Constraints.get, rabs,
      eps] at h1
  · intro hsb
    have h1 := hsb.1
    norm_num [initTableau, epsFoods, epsCons, Food.nutr, Constraints.get, rabs,
      eps] at h1
  · intro hsb
    have h1 := hsb.1
    norm_num [initTableau, epsFoods, epsCons, Food.nutr, Constraints.get, rabs,
      eps] at h1

/-- C7 (counterexample): a request whose single food has unit cost `-1`
passes the handler's validation — the result is the solver's unbounded
error, not any of the three validation errors, so negative costs are not
rejected before the tableau is built and solving is attempted. -/
theorem C7_counterexample :
    optimizeHandler (some ubFoods) (some ubReq) = simplexSolve ubFoods ubCons ∧
    simplexSolve ubFoods ubCons = .error "Problem is unbounded" ∧
    "Problem is unbounded" ≠ "Missing foods or constraints" ∧
    "Problem is unbounded" ≠ "Invalid foods array" ∧
    "Problem is unbounded" ≠ "Missing or invalid constraint: protein" := by
  refine ⟨rfl, ubSolve_eq, by decide, by decide, by decide⟩

/-- C8 (counterexample): on an input containing a zero-cost item with an
all-zero nutrientVector the solver returns a Solution, not the Unbounded
failure the claim demands — a zero objective entry is not strictly
negative, so the item never enters. -/
theorem C8_counterexample :
    simplexSolve zFoods zCons = .ok zSol ∧
    simplexSolve zFoods zCons ≠ .error "Problem is unbounded" := by
  refine ⟨zSolve_eq, ?_⟩
  rw [zSolve_eq]
  intro h
  cases h

/-- C2 (witness): the extractor at a concrete final tableau whose item
column passes the basis test at no row returns amount 0. -/
theorem C2_witness :
    (extractAmounts (initTableau zFoods zCons).mat 1).getD 0 0 = 0 :=
  C2_extractor_spec.2.1 (initTableau zFoods zCons).mat 1 0 (by norm_num)
    (by
      intro i hi hb
      have h1 := hb.1
      interval_cases i <;>
        norm_num [initTableau, zFoods, zCons, Food.nutr, Constraints.get, rabs,
          eps] at h1)

/-- C3 (witness): the concrete zero-cost solve returns with a pivot
count within the cap. -/
theorem C3_witness : zSol.iterCount ≤ 100 :=
  C3_iteration_cap.1 zFoods zCons zSol zSolve_eq

/-- C4 (witness): at the concrete negative-cost tableau, entering column
0 exists, no leaving row exists, and the loop stops unbounded. -/
theorem C4_witness :
    loop 6 7 (initTableau ubFoods ubCons) (99 + 1) = .error "Problem is unbounded" :=
  C4_unbounded_surfaces.1 6 7 99 (initTableau ubFoods ubCons) 0
    (by
      norm_num [findPivotColumn, initTableau, ubFoods, ubCons, Food.nutr,
        Constraints.get, List.range_succ])
    (by
      norm_num [findPivotRow, frStep, ratioAt, initTableau, ubFoods, ubCons,
        Food.nutr, Constraints.get, eps, List.range_succ])

/-- C5 (witness): on the concrete tableau where every candidate row has
a negative ratio, `findPivotRow` returns none. -/
theorem C5_witness :
    findPivotRow (initTableau ubFoods ubCons).mat 6 7 0 = none :=
  (C5_findLeavingRow_spec (initTableau ubFoods ubCons).mat 6 7 0).1.mpr
    (by
      intro i hi
      interval_cases i <;>
        norm_num [qualRow, ratioAt, initTableau, ubFoods, ubCons, Food.nutr,
          Constraints.get, eps])

/-- C6 (witness): a concrete pivot at an element of magnitude 1 puts an
exact 1 at the pivot position. -/
theorem C6_witness :
    ((initTableau ubFoods ubCons).pivot 0 0).mat 0 0 = 1 :=
  (C6_pivot_invariant.1 (initTableau ubFoods ubCons) 0 0
    (by
      norm_num [initTableau, ubFoods, ubCons, Food.nutr, Constraints.get, rabs,
        eps])).1

/-- C7 (witness): a concrete nonempty request with all five constraint
keys present reaches the solver unchanged. -/
theorem C7_witness :
    optimizeHandler (some ubFoods) (some ⟨some 1, some 1, some 1, some 1, some 1⟩) =
      simplexSolve ubFoods ⟨1, 1, 1, 1, 1⟩ :=
  C7_validation.2.2.2.2 ubFoods 1 1 1 1 1 (by simp [ubFoods])

/-- C8 (witness): a concrete negative-cost all-zero-nutrient item yields
the Unbounded failure. -/
theorem C8_witness :
    simplexSolve c8Foods zCons = .error "Problem is unbounded" :=
  C8_amended c8Foods zCons
    (by
      intro f hf
      fin_cases hf
      norm_num)
    ⟨⟨"FreeNeg", -1, 0, 0, 0, 0, 0⟩, by simp [c8Foods], by norm_num⟩

/-- C9 (witness): a concrete used item produces its sweep entry. -/
theorem C9_witness :
    ({ food := (zFoods.getD 0 default).name
       currentPrice := (zFoods.getD 0 default).cost
       quantity := ([(1 : ℚ)].getD 0 0)
       analysis := pctList.map
         (sensRowFor (zFoods.getD 0 default).cost ([(1 : ℚ)].getD 0 0)) } : SensEntry)
      ∈ sensitivityHandler [(1 : ℚ)] zFoods :=
  C9_sensitivity_spec.2.1 [(1 : ℚ)] zFoods 0 (by norm_num [zFoods])
    (by norm_num [eps, List.getD])

/-- C10 (witness): the concrete zero-cost solve returns with
`feasible = true`. -/
theorem C10_witness : zSol.feasible = true :=
  C10_feasible_flag zFoods zCons zSol zSolve_eq

end DietOpt
